import Mathlib

/-!
Verification of the spelling-bee study app (src/main.py) against its
specification.  The Python functions are shallowly embedded as Lean
definitions: database rows become structures, the two storage backends
(Turso cursor code and the FastHTML table code), which implement the same
arithmetic, are modelled once, timestamps are modelled as natural-number
seconds (ISO-8601 strings of a fixed format compare lexicographically in
the same order), `timedelta` values become their length in seconds, and
the calls to `random.shuffle` / `random.random` / `random.choice` are
modelled by explicit oracle parameters (a shuffle function per attempt, a
boolean for the `random.random() < 0.7` test, and an index selecting an
element of the relevant pool).
-/

namespace SpellingBee

/-- Row of the `words` table, as read back by the `Word` class in
src/main.py.  Fields not used by the verified functions carry defaults. -/
structure Word where
  id : Nat
  word : String
  difficulty_level : Nat
  definition : String := ""
  functional_label : String := ""
  pronunciation : String := ""
  has_audio : Bool := false
  audio_url : String := ""
  audio_file_local : String := ""
  is_inflection : Bool := false
  base_word : String := ""
  is_primary : Bool
  primary_word : String
deriving Repr, DecidableEq

/-- Row of the `user_word_progress` table.  Counters are integers exactly
as in Python; timestamps are seconds. -/
structure ProgressRecord where
  user_id : Nat
  word_id : Nat
  times_attempted : Int
  times_correct : Int
  times_incorrect : Int
  first_attempted_at : Nat
  last_attempted_at : Nat
  next_review_at : Nat
  current_streak : Int
  mastery_level : Int
deriving Repr, DecidableEq

/-- Number of seconds in `timedelta(minutes=n)`. -/
def minutes (n : Nat) : Nat := n * 60

/-- Number of seconds in `timedelta(hours=n)`. -/
def hours (n : Nat) : Nat := n * 3600

/-- Number of seconds in `timedelta(days=n)`. -/
def days (n : Nat) : Nat := n * 86400

/-- Number of seconds in `timedelta(weeks=n)`. -/
def weeks (n : Nat) : Nat := n * 604800

/-- The `SRS_INTERVALS` dictionary of src/main.py, as a partial lookup. -/
def SRS_INTERVALS (m : Int) : Option Nat :=
  if m = 0 then some (minutes 5)
  else if m = 1 then some (hours 1)
  else if m = 2 then some (hours 6)
  else if m = 3 then some (days 1)
  else if m = 4 then some (days 3)
  else if m = 5 then some (weeks 1)
  else none

/-- The expression `SRS_INTERVALS.get(mastery_level, timedelta(weeks=2))`
used by `update_progress`. -/
def srsInterval (m : Int) : Nat := (SRS_INTERVALS m).getD (weeks 2)

/-- The `update_progress` function of src/main.py, acting on the record
for the given (user, word) pair: `existing` is the fetched row (none when
the SELECT returns nothing), and the result is the row written back (the
INSERT branch when `existing` is none, the UPDATE branch otherwise).
Both storage backends in the source compute exactly these values. -/
def update_progress (user_id word_id : Nat) (correct : Bool)
    (now : Nat) (existing : Option ProgressRecord) : ProgressRecord :=
  match existing with
  | some r =>
      let times_attempted := r.times_attempted + 1
      let times_correct := r.times_correct + (if correct then 1 else 0)
      let times_incorrect := r.times_incorrect + (if correct then 0 else 1)
      let current_streak := if correct then r.current_streak + 1 else 0
      let mastery_level :=
        if correct then min 5 (r.mastery_level + 1) else max 0 (r.mastery_level - 1)
      let interval := srsInterval mastery_level
      { r with
        times_attempted := times_attempted
        times_correct := times_correct
        times_incorrect := times_incorrect
        last_attempted_at := now
        next_review_at := now + interval
        current_streak := current_streak
        mastery_level := mastery_level }
  | none =>
      let times_attempted : Int := 1
      let times_correct : Int := if correct then 1 else 0
      let times_incorrect : Int := if correct then 0 else 1
      let current_streak : Int := if correct then 1 else 0
      let mastery_level : Int := if correct then 1 else 0
      let interval := srsInterval mastery_level
      { user_id := user_id
        word_id := word_id
        times_attempted := times_attempted
        times_correct := times_correct
        times_incorrect := times_incorrect
        first_attempted_at := now
        last_attempted_at := now
        next_review_at := now + interval
        current_streak := current_streak
        mastery_level := mastery_level }

/-- The `while (jumbled is None or jumbled == word) and attempts < 100`
loop of `jumble_word`: `shuffle i word` is the outcome of the call to
`random.shuffle` on attempt `i` (always some permutation of `word`), `i`
is the current attempt index and `fuel` the number of attempts left.  The
loop exits early with the first shuffle that differs from `word`; when all
attempts produce `word` the loop variable `jumbled` is left equal to
`word`. -/
def shuffleLoop (shuffle : Nat → List Char → List Char)
    (word : List Char) : Nat → Nat → List Char
  | _, 0 => word
  | i, fuel + 1 =>
      let jumbled := shuffle i word
      if jumbled = word then shuffleLoop shuffle word (i + 1) fuel else jumbled

/-- The `jumble_word` function of src/main.py with the calls to
`random.shuffle` made explicit: words of length at most 1 are returned
unchanged; otherwise up to 100 shuffles are tried, and if the result still
equals the word (and its length exceeds 1) the first two letters are
swapped. -/
def jumble_word (shuffle : Nat → List Char → List Char)
    (word : List Char) : List Char :=
  if word.length ≤ 1 then word
  else
    let jumbled := shuffleLoop shuffle word 0 100
    if jumbled = word ∧ 1 < word.length then
      match word with
      | a :: b :: rest => b :: a :: rest
      | w => w
    else jumbled

/-- Model of the Python method `str.lower()` on the ASCII spellings of the catalog:
lower-cases every character. -/
def strLower (s : String) : String := String.mk (s.data.map Char.toLower)

/-- The `check_answer_against_alternates` function of src/main.py.  The
word row is fetched by id (none models the crash on an unknown id); the
answer string is compared, exactly as written, against the lower-cased
stored spellings: the word itself, then — when the word is an alternate
with a non-empty back-reference — its primary word, then — when the word
is primary — every row whose `primary_word` equals its spelling. -/
def check_answer_against_alternates (store : List Word)
    (answer : String) (word_id : Nat) : Option Bool :=
  (store.find? fun w => w.id == word_id).map fun word =>
    if answer = strLower word.word then true
    else if word.is_primary = false ∧ word.primary_word ≠ "" ∧
        answer = strLower word.primary_word then true
    else if word.is_primary then
      (store.filter fun w2 => decide (w2.primary_word = word.word)).any
        fun alt => decide (answer = strLower alt.word)
    else false

/-- Specification-side matching predicate for `check_answer_against_alternates`
(clauses (a), (b), (c) of the spec, with the submission compared verbatim
against lower-cased stored spellings). -/
def matchesStored (store : List Word) (answer : String) (word : Word) : Prop :=
  answer = strLower word.word ∨
  (word.is_primary = false ∧ word.primary_word ≠ "" ∧
    answer = strLower word.primary_word) ∨
  (word.is_primary = true ∧
    ∃ alt ∈ store, alt.primary_word = word.word ∧ answer = strLower alt.word)

/-- A sequence of `update_progress` calls for one (user, word) pair,
starting from a given stored state (none when the record does not exist
yet); each element of `outcomes` is the (correct, now) pair of one call.
Returns the stored record afterwards. -/
def runUpdatesFrom (user_id word_id : Nat) (start : Option ProgressRecord)
    (outcomes : List (Bool × Nat)) : Option ProgressRecord :=
  outcomes.foldl
    (fun acc ob => some (update_progress user_id word_id ob.1 ob.2 acc)) start

/-- A sequence of `update_progress` calls starting from record creation. -/
def runUpdates (user_id word_id : Nat)
    (outcomes : List (Bool × Nat)) : Option ProgressRecord :=
  runUpdatesFrom user_id word_id none outcomes

/-- Model of `random.choice(l)` with the random draw made explicit: the
element at index `r % l.length`; none models the IndexError raised on an
empty list. -/
def choice {α : Type} (l : List α) (r : Nat) : Option α := l[r % l.length]?

/-- The `get_next_word` function of src/main.py with the random draws made
explicit: `coin` is the outcome of `random.random() < 0.7` and `rDue`,
`rNew`, `rAll` the draws of the `random.choice` calls.  Primary words of
the tier are partitioned into due words (progress exists and review time
has passed, repeated `10 - mastery_level` times) and new words (no
progress); the progress rows of the user are looked up through a dict keyed by
word id, so a later row overwrites an earlier one. -/
def get_next_word (words : List Word) (progress : List ProgressRecord)
    (user_id difficulty_level now : Nat) (coin : Bool)
    (rDue rNew rAll : Nat) : Option Word :=
  let all_words := words.filter fun w =>
    w.difficulty_level == difficulty_level && w.is_primary
  let user_progress := (progress.filter fun p => p.user_id == user_id).reverse
  let pools := all_words.foldl
    (fun (acc : List Word × List Word) word =>
      match user_progress.find? (fun p => p.word_id == word.id) with
      | none => (acc.1, acc.2 ++ [word])
      | some prog =>
          if prog.next_review_at ≤ now then
            (acc.1 ++ List.replicate (10 - prog.mastery_level).toNat word, acc.2)
          else acc)
    ([], [])
  let due_words := pools.1
  let new_words := pools.2
  if due_words ≠ [] ∧ coin = true then choice due_words rDue
  else if new_words ≠ [] then choice new_words rNew
  else if due_words ≠ [] then choice due_words rDue
  else choice all_words rAll

/-- Specification-side pool of new words: primary words of the tier with
no progress record under the given lookup. -/
def newPool (all_words : List Word)
    (lookup : Nat → Option ProgressRecord) : List Word :=
  all_words.filter fun w => (lookup w.id).isNone

/-- Specification-side pool of due words: primary words whose progress
record exists with `next_review_at ≤ now`, each repeated
`10 - mastery_level` times. -/
def duePool (all_words : List Word)
    (lookup : Nat → Option ProgressRecord) (now : Nat) : List Word :=
  all_words.flatMap fun w =>
    match lookup w.id with
    | some prog =>
        if prog.next_review_at ≤ now then
          List.replicate (10 - prog.mastery_level).toNat w
        else []
    | none => []

/-- Progress lookup used by `get_next_word`: the rows of the user in
order, later rows overwriting earlier ones (Python dict insertion). -/
def dictLookup (progress : List ProgressRecord)
    (user_id : Nat) : Nat → Option ProgressRecord := fun word_id =>
  ((progress.filter fun p => p.user_id == user_id).reverse).find?
    fun p => p.word_id == word_id

/-- Result record of `get_user_stats`. -/
structure Stats where
  total : Nat
  mastered : Nat
  in_progress : Nat
  not_started : Int
  mastery_pct : Nat
  progress_pct : Nat
deriving Repr, DecidableEq

/-- Rounding of the rational num/den to the nearest integer, ties to
even; the rounding used by IEEE-754 binary64 arithmetic. -/
def roundNearestEven (num den : Nat) : Nat :=
  let q := num / den
  let r := num % den
  if 2 * r < den then q
  else if den < 2 * r then q + 1
  else if q % 2 = 0 then q else q + 1

/-- Least shift s (searched with explicit fuel) with target ≤ m * 2 ^ s. -/
def leastShiftAux (m target : Nat) : Nat → Nat → Nat
  | s, 0 => s
  | s, fuel + 1 =>
      if target ≤ m * 2 ^ s then s else leastShiftAux m target (s + 1) fuel

/-- Least s with 2 ^ 52 * t ≤ m * 2 ^ s, so that the significand of m/t
has 53 bits after shifting by s. -/
def leastShift (m t : Nat) : Nat := leastShiftAux m (2 ^ 52 * t) 0 1200

/-- Binary64 value of m / t (0 < m, 0 < t, normal range) as a
significand/exponent pair (sig, e) with value sig * 2 ^ e and
2 ^ 52 ≤ sig < 2 ^ 53; this is what the Python true division of two ints
produces. -/
def divDouble (m t : Nat) : Nat × Int :=
  let s := leastShift m t
  let sig := roundNearestEven (m * 2 ^ s) t
  if sig = 2 ^ 53 then (2 ^ 52, -(s : Int) + 1) else (sig, -(s : Int))

/-- Number of binary digits of n (0 for 0), computed with explicit fuel
so that it reduces inside the kernel; 128 bits of fuel covers every
quantity arising here. -/
def bitLenAux : Nat → Nat → Nat
  | _, 0 => 0
  | n, fuel + 1 => if n = 0 then 0 else bitLenAux (n / 2) fuel + 1

/-- Number of binary digits of n. -/
def bitLen (n : Nat) : Nat := bitLenAux n 128

/-- Binary64 multiplication of the double (sig, e) by 100: the exact
product rounded back to 53 significant bits. -/
def mulDouble100 (x : Nat × Int) : Nat × Int :=
  let n := x.1 * 100
  let d := bitLen n - 53
  let sig := roundNearestEven n (2 ^ d)
  if sig = 2 ^ 53 then (2 ^ 52, x.2 + (d : Int) + 1) else (sig, x.2 + (d : Int))

/-- Truncation toward zero of the non-negative double (sig, e): the Python
conversion `int()` applied to a float. -/
def truncDouble (x : Nat × Int) : Nat :=
  if 0 ≤ x.2 then x.1 * 2 ^ x.2.toNat else x.1 / 2 ^ (-x.2).toNat

/-- The Python expression `int((m / t) * 100)` on non-negative ints m ≤ t,
computed in IEEE-754 binary64 arithmetic. -/
def floatPct (m t : Nat) : Nat :=
  if m = 0 ∨ t = 0 then 0 else truncDouble (mulDouble100 (divDouble m t))

/-- The `get_user_stats` function of src/main.py: counts of primary words
of the tier that are mastered (progress row with mastery_level ≥ 5) and
in progress (row with 0 < mastery_level < 5), the remainder not started,
and the two percentages computed in float arithmetic, 0 when the tier is
empty.  Rows are fetched per word with `fetchone` (first matching row). -/
def get_user_stats (words : List Word) (progress : List ProgressRecord)
    (user_id difficulty_level : Nat) : Stats :=
  let all_words := words.filter fun w =>
    w.difficulty_level == difficulty_level && w.is_primary
  let total := all_words.length
  let counts := all_words.foldl
    (fun (mi : Nat × Nat) word =>
      match progress.find?
          (fun p => p.user_id == user_id && p.word_id == word.id) with
      | some r =>
          if r.mastery_level ≥ 5 then (mi.1 + 1, mi.2)
          else if r.mastery_level > 0 then (mi.1, mi.2 + 1)
          else mi
      | none => mi)
    (0, 0)
  let mastered := counts.1
  let in_progress := counts.2
  { total := total
    mastered := mastered
    in_progress := in_progress
    not_started := (total : Int) - mastered - in_progress
    mastery_pct := if total > 0 then floatPct mastered total else 0
    progress_pct := if total > 0 then floatPct (mastered + in_progress) total else 0 }

/-- Progress lookup used by `get_user_stats`: first row of the user for
the word (`fetchone`). -/
def statsLookup (progress : List ProgressRecord)
    (user_id word_id : Nat) : Option ProgressRecord :=
  progress.find? fun p => p.user_id == user_id && p.word_id == word_id

/-- Specification-side count of mastered words (mastery_level ≥ 5). -/
def masteredCount (all_words : List Word) (progress : List ProgressRecord)
    (user_id : Nat) : Nat :=
  all_words.countP fun w =>
    match statsLookup progress user_id w.id with
    | some r => decide (5 ≤ r.mastery_level)
    | none => false

/-- Specification-side count of in-progress words (mastery 1 to 4). -/
def inProgressCount (all_words : List Word) (progress : List ProgressRecord)
    (user_id : Nat) : Nat :=
  all_words.countP fun w =>
    match statsLookup progress user_id w.id with
    | some r => decide (0 < r.mastery_level ∧ r.mastery_level < 5)
    | none => false

/-- Demonstration tier of 50 primary words with ids 0 to 49. -/
def demoWords50 : List Word := (List.range 50).map fun i =>
  { id := i, word := "w", difficulty_level := 1, is_primary := true,
    primary_word := "" }

/-- Demonstration progress: user 1 has mastered the words with ids 0 to 28. -/
def demoProgress29 : List ProgressRecord := (List.range 29).map fun i =>
  { user_id := 1, word_id := i, times_attempted := 5, times_correct := 5,
    times_incorrect := 0, first_attempted_at := 0, last_attempted_at := 0,
    next_review_at := 3000, current_streak := 5, mastery_level := 5 }

/-- Demonstration tier of 10 primary words with ids 0 to 9. -/
def demoWords10 : List Word := (List.range 10).map fun i =>
  { id := i, word := "w", difficulty_level := 1, is_primary := true,
    primary_word := "" }

/-- Demonstration progress: user 1 has mastered words 0 to 2 and is in
progress on words 3 and 4. -/
def demoProgress5 : List ProgressRecord := (List.range 5).map fun i =>
  { user_id := 1, word_id := i, times_attempted := 5, times_correct := 4,
    times_incorrect := 1, first_attempted_at := 0, last_attempted_at := 0,
    next_review_at := 3000, current_streak := 2,
    mastery_level := if i < 3 then 5 else 2 }

/-! Helper lemmas about sequences of progress updates. -/

theorem runUpdatesFrom_cons (user_id word_id : Nat)
    (start : Option ProgressRecord) (ob : Bool × Nat)
    (rest : List (Bool × Nat)) :
    runUpdatesFrom user_id word_id start (ob :: rest) =
      runUpdatesFrom user_id word_id
        (some (update_progress user_id word_id ob.1 ob.2 start)) rest := rfl

theorem runUpdatesFrom_preserves {P : ProgressRecord → Prop}
    (hstep : ∀ u w c now existing,
      (∀ r0, existing = some r0 → P r0) →
      P (update_progress u w c now existing))
    (u w : Nat) :
    ∀ (outcomes : List (Bool × Nat)) (start : Option ProgressRecord),
      (∀ r0, start = some r0 → P r0) →
      ∀ r, runUpdatesFrom u w start outcomes = some r → P r := by
  intro outcomes
  induction outcomes with
  | nil => intro start h r hr; exact h r hr
  | cons ob rest ih =>
      intro start h r hr
      rw [runUpdatesFrom_cons] at hr
      refine ih _ ?_ r hr
      intro r0 h0
      cases h0
      exact hstep u w ob.1 ob.2 start h

theorem update_correct_streak_some (u w now : Nat) (r0 : ProgressRecord) :
    (update_progress u w true now (some r0)).current_streak =
      r0.current_streak + 1 := rfl

theorem update_correct_streak_none (u w now : Nat) :
    (update_progress u w true now none).current_streak = 1 := rfl

theorem runCorrect_streak (u w : Nat) :
    ∀ (nows : List Nat) (r0 r : ProgressRecord),
      runUpdatesFrom u w (some r0) (nows.map fun t => (true, t)) = some r →
      r.current_streak = r0.current_streak + nows.length := by
  intro nows
  induction nows with
  | nil =>
      intro r0 r hr
      simp only [List.map_nil, runUpdatesFrom, List.foldl_nil,
        Option.some_inj] at hr
      simp [← hr]
  | cons t ts ih =>
      intro r0 r hr
      rw [List.map_cons, runUpdatesFrom_cons] at hr
      have h := ih (update_progress u w true t (some r0)) r hr
      rw [update_correct_streak_some] at h
      simp only [List.length_cons]
      omega

/-- C3: over any sequence of update_progress calls starting from record
creation, the stored mastery_level stays within [0, 5]. -/
theorem C3_mastery_bounded (user_id word_id : Nat)
    (outcomes : List (Bool × Nat)) (r : ProgressRecord)
    (h : runUpdates user_id word_id outcomes = some r) :
    0 ≤ r.mastery_level ∧ r.mastery_level ≤ 5 := by
  refine runUpdatesFrom_preserves
    (P := fun r => 0 ≤ r.mastery_level ∧ r.mastery_level ≤ 5) ?_
    user_id word_id outcomes none (by simp) r h
  intro u w c now existing hex
  cases existing with
  | none => cases c <;> simp [update_progress]
  | some r0 =>
      have hb := hex r0 rfl
      cases c <;> simp [update_progress] <;> omega

/-- C3 witness: one correct answer from creation gives a mastery level
inside the bounds. -/
theorem C3_witness :
    0 ≤ (update_progress 1 2 true 10 none).mastery_level ∧
    (update_progress 1 2 true 10 none).mastery_level ≤ 5 :=
  C3_mastery_bounded 1 2 [(true, 10)] (update_progress 1 2 true 10 none) rfl

/-- C5: update_progress stamps last_attempted_at with now, schedules
next_review_at as now plus the interval of the updated mastery level, and
the interval table maps levels 0..5 to 5 minutes, 1 hour, 6 hours, 1 day,
3 days and 1 week, any unmapped level to 2 weeks. -/
theorem C5_srs_schedule (user_id word_id : Nat) (correct : Bool) (now : Nat)
    (existing : Option ProgressRecord) :
    (update_progress user_id word_id correct now existing).last_attempted_at
        = now ∧
    (update_progress user_id word_id correct now existing).next_review_at =
      now + srsInterval
        (update_progress user_id word_id correct now existing).mastery_level ∧
    srsInterval 0 = minutes 5 ∧ srsInterval 1 = hours 1 ∧
    srsInterval 2 = hours 6 ∧ srsInterval 3 = days 1 ∧
    srsInterval 4 = days 3 ∧ srsInterval 5 = weeks 1 ∧
    ∀ m : Int, m < 0 ∨ 5 < m → srsInterval m = weeks 2 := by
  refine ⟨?_, ?_, by decide, by decide, by decide, by decide, by decide,
    by decide, ?_⟩
  · cases existing <;> rfl
  · cases existing <;> rfl
  · intro m hm
    have h0 : ¬m = 0 := by omega
    have h1 : ¬m = 1 := by omega
    have h2 : ¬m = 2 := by omega
    have h3 : ¬m = 3 := by omega
    have h4 : ¬m = 4 := by omega
    have h5 : ¬m = 5 := by omega
    simp [srsInterval, SRS_INTERVALS, h0, h1, h2, h3, h4, h5]

/-- C5 witness: concrete instance of the schedule facts, with the default
interval exercised at the unmapped level 7. -/
theorem C5_witness :
    (update_progress 1 2 true 10 none).last_attempted_at = 10 ∧
    srsInterval 7 = weeks 2 :=
  ⟨(C5_srs_schedule 1 2 true 10 none).1,
   (C5_srs_schedule 1 2 true 10 none).2.2.2.2.2.2.2.2 7 (Or.inr (by decide))⟩

/-- C6: the review interval is strictly monotone in the mastery level over
the mapped levels 0 to 5, hence so is the scheduled next_review_at for a
fixed now. -/
theorem C6_interval_monotone (i j : Int) (h0 : 0 ≤ i) (hij : i < j)
    (h5 : j ≤ 5) :
    srsInterval i < srsInterval j ∧
    ∀ now : Nat, now + srsInterval i < now + srsInterval j := by
  have h : srsInterval i < srsInterval j := by
    have hi : i ≤ 4 := by omega
    interval_cases i <;> interval_cases j <;> decide
  exact ⟨h, fun now => Nat.add_lt_add_left h now⟩

/-- C6 witness: the interval at level 1 is shorter than at level 3. -/
theorem C6_witness : srsInterval 1 < srsInterval 3 :=
  (C6_interval_monotone 1 3 (by decide) (by decide) (by decide)).1

/-- C7: an incorrect answer resets current_streak to 0, and N consecutive
correct answers starting from record creation or from a streak of 0 leave
current_streak equal to N. -/
theorem C7_streak :
    (∀ (u w now : Nat) (existing : Option ProgressRecord),
      (update_progress u w false now existing).current_streak = 0) ∧
    (∀ (u w : Nat) (start : Option ProgressRecord) (nows : List Nat)
        (r : ProgressRecord),
      (start = none ∨ ∃ r0, start = some r0 ∧ r0.current_streak = 0) →
      runUpdatesFrom u w start (nows.map fun t => (true, t)) = some r →
      r.current_streak = nows.length) := by
  constructor
  · intro u w now existing
    cases existing <;> simp [update_progress]
  · intro u w start nows r hstart hr
    rcases hstart with h | ⟨r0, rfl, hs⟩
    · subst h
      cases nows with
      | nil =>
          simp only [List.map_nil, runUpdatesFrom, List.foldl_nil] at hr
          cases hr
      | cons t ts =>
          rw [List.map_cons, runUpdatesFrom_cons] at hr
          have h := runCorrect_streak u w ts
            (update_progress u w true t none) r hr
          rw [update_correct_streak_none] at h
          simp only [List.length_cons]
          omega
    · have h := runCorrect_streak u w nows r0 r hr
      omega

/-- C7 witness: an incorrect answer gives streak 0; two correct answers
from creation give streak 2. -/
theorem C7_witness :
    (update_progress 1 2 false 10 none).current_streak = 0 ∧
    (update_progress 1 2 true 6
      (some (update_progress 1 2 true 5 none))).current_streak = 2 :=
  ⟨C7_streak.1 1 2 10 none,
   C7_streak.2 1 2 none [5, 6]
     (update_progress 1 2 true 6 (some (update_progress 1 2 true 5 none)))
     (Or.inl rfl) rfl⟩

/-- C10: after any sequence of update_progress calls from record creation,
times_attempted equals times_correct plus times_incorrect. -/
theorem C10_attempts_sum (user_id word_id : Nat)
    (outcomes : List (Bool × Nat)) (r : ProgressRecord)
    (h : runUpdates user_id word_id outcomes = some r) :
    r.times_attempted = r.times_correct + r.times_incorrect := by
  refine runUpdatesFrom_preserves
    (P := fun r => r.times_attempted = r.times_correct + r.times_incorrect)
    ?_ user_id word_id outcomes none (by simp) r h
  intro u w c now existing hex
  cases existing with
  | none => cases c <;> simp [update_progress]
  | some r0 =>
      have hb := hex r0 rfl
      cases c <;> simp [update_progress] <;> omega

/-- C10 witness: the attempt-count equation after one correct answer. -/
theorem C10_witness :
    (update_progress 1 2 true 10 none).times_attempted =
      (update_progress 1 2 true 10 none).times_correct +
        (update_progress 1 2 true 10 none).times_incorrect :=
  C10_attempts_sum 1 2 [(true, 10)] (update_progress 1 2 true 10 none) rfl

theorem shuffleLoop_cases (s : Nat → List Char → List Char) (w : List Char) :
    ∀ (fuel i : Nat), shuffleLoop s w i fuel = w ∨
      (∃ j, shuffleLoop s w i fuel = s j w) ∧ shuffleLoop s w i fuel ≠ w := by
  intro fuel
  induction fuel with
  | zero => intro i; exact Or.inl rfl
  | succ n ih =>
      intro i
      by_cases h : s i w = w
      · have he : shuffleLoop s w i (n + 1) = shuffleLoop s w (i + 1) n := by
          simp [shuffleLoop, h]
        rw [he]
        exact ih (i + 1)
      · have he : shuffleLoop s w i (n + 1) = s i w := by
          simp [shuffleLoop, h]
        rw [he]
        exact Or.inr ⟨⟨i, rfl⟩, h⟩

/-- C1 counterexample: for a word of length greater than 1 made of a
single repeated letter, jumble_word returns the word itself (every
permutation of the letters, and the first-two-letters fallback swap,
equals the original). -/
theorem C1_counterexample :
    jumble_word (fun _ l => l) ['a', 'a'] = ['a', 'a'] ∧
    1 < (['a', 'a'] : List Char).length := by
  exact ⟨rfl, by decide⟩

theorem perm_replicate_eq {l w : List Char} {c : Char} (hp : l.Perm w)
    (hw : w = List.replicate w.length c) : l = w := by
  rw [hw] at hp
  rw [List.perm_replicate.mp hp, ← hw]

/-- C1 (amended): whenever every shuffle outcome is a permutation of the
word, jumble_word returns a permutation of the word; words of length at
most 1 come back unchanged; the result differs from the word whenever its
first two letters differ; and a word made of one repeated letter comes
back unchanged. -/
theorem C1_jumble_amended (shuffle : Nat → List Char → List Char)
    (word : List Char) (hperm : ∀ i, (shuffle i word).Perm word) :
    (jumble_word shuffle word).Perm word ∧
    (word.length ≤ 1 → jumble_word shuffle word = word) ∧
    (∀ a b rest, word = a :: b :: rest → a ≠ b →
      jumble_word shuffle word ≠ word) ∧
    (∀ c, word = List.replicate word.length c →
      jumble_word shuffle word = word) := by
  by_cases hlen : word.length ≤ 1
  · have hj : jumble_word shuffle word = word := by simp [jumble_word, hlen]
    refine ⟨by rw [hj], fun _ => hj, ?_, fun _ _ => hj⟩
    intro a b rest hw hab
    subst hw
    simp at hlen
  · have h1 : 1 < word.length := by omega
    obtain ⟨a, b, rest, hw⟩ : ∃ a b rest, word = a :: b :: rest := by
      match word, h1 with
      | x :: y :: l, _ => exact ⟨x, y, l, rfl⟩
    subst hw
    rcases shuffleLoop_cases shuffle (a :: b :: rest) 100 0 with
      hJ | ⟨⟨j, hJ⟩, hne⟩
    · have hj : jumble_word shuffle (a :: b :: rest) = b :: a :: rest := by
        simp [jumble_word, hJ]
      refine ⟨by rw [hj]; exact List.Perm.swap a b rest,
        fun hc => absurd hc hlen, ?_, ?_⟩
      · intro x y l hw hxy
        rw [hj]
        simp only [List.cons.injEq] at hw
        obtain ⟨hx, hy, -⟩ := hw
        intro hcontra
        simp only [List.cons.injEq] at hcontra
        exact hxy (hy ▸ hx ▸ hcontra.1.symm)
      · intro c hc
        rw [hj]
        simp only [List.length_cons, List.replicate_succ, List.cons.injEq] at hc
        obtain ⟨ha, hb, -⟩ := hc
        rw [ha, hb]
    · have hj : jumble_word shuffle (a :: b :: rest) =
          shuffleLoop shuffle (a :: b :: rest) 0 100 := by
        simp [jumble_word, hne]
      refine ⟨by rw [hj, hJ]; exact hperm j,
        fun hc => absurd hc hlen,
        fun x y l hw hxy => by rw [hj]; exact hne, ?_⟩
      intro c hc
      exfalso
      apply hne
      have hp : (shuffleLoop shuffle (a :: b :: rest) 0 100).Perm
          (a :: b :: rest) := by
        rw [hJ]
        exact hperm j
      exact perm_replicate_eq hp hc

/-- C1 witness: a two-letter word with distinct letters, under the
identity shuffle oracle, comes back as a permutation that differs from
the original. -/
theorem C1_witness :
    (jumble_word (fun _ l => l) ['a', 'b']).Perm ['a', 'b'] ∧
    jumble_word (fun _ l => l) ['a', 'b'] ≠ ['a', 'b'] :=
  ⟨(C1_jumble_amended (fun _ l => l) ['a', 'b'] fun _ => List.Perm.refl _).1,
   (C1_jumble_amended (fun _ l => l) ['a', 'b'] fun _ => List.Perm.refl _).2.2.1
     'a' 'b' [] rfl (by decide)⟩

/-- C2 counterexample: the submission is not lower-cased before the
comparison, so a submission that equals the stored spelling up to case —
here "CAT" against the stored word "cat" — is rejected, although the two
are equal case-insensitively. -/
theorem C2_counterexample :
    check_answer_against_alternates
      [{ id := 1, word := "cat", difficulty_level := 1, is_primary := true,
         primary_word := "" }] "CAT" 1 = some false ∧
    strLower "CAT" = strLower "cat" := by
  exact ⟨rfl, by decide⟩

/-- C2 (amended): for a stored word id, the check returns true exactly
when the submission, compared verbatim, equals the lower-cased spelling of
the word itself, of its primary word (when the word is an alternate with a
non-empty back-reference), or of any alternate registered against it (when
the word is primary); exact string equality only. -/
theorem C2_check_amended (store : List Word) (answer : String)
    (word_id : Nat) (word : Word)
    (hfind : store.find? (fun w => w.id == word_id) = some word) :
    (check_answer_against_alternates store answer word_id = some true ↔
      matchesStored store answer word) := by
  rw [check_answer_against_alternates, hfind]
  simp only [Option.map_some', Option.some.injEq]
  split_ifs with ha hb hp
  · exact iff_of_true rfl (Or.inl ha)
  · exact iff_of_true rfl (Or.inr (Or.inl hb))
  · rw [List.any_eq_true]
    constructor
    · rintro ⟨alt, hmem, hdec⟩
      rw [List.mem_filter] at hmem
      exact Or.inr (Or.inr ⟨hp, alt, hmem.1, of_decide_eq_true hmem.2,
        of_decide_eq_true hdec⟩)
    · rintro (h | h | ⟨hprim, alt, hmem, hpw, hans⟩)
      · exact absurd h ha
      · exact absurd h hb
      · exact ⟨alt, List.mem_filter.mpr ⟨hmem, decide_eq_true hpw⟩,
          decide_eq_true hans⟩
  · refine iff_of_false (by simp) ?_
    rintro (h | h | ⟨hprim, -⟩)
    · exact ha h
    · exact hb h
    · exact hp hprim

/-- C2 witness: "cat" matches its own id, and an alternate spelling
"colour" registered against the primary "color" matches the primary
id of the primary word. -/
theorem C2_witness :
    check_answer_against_alternates
      [{ id := 1, word := "cat", difficulty_level := 1, is_primary := true,
         primary_word := "" }] "cat" 1 = some true ∧
    check_answer_against_alternates
      [{ id := 1, word := "color", difficulty_level := 1, is_primary := true,
         primary_word := "" },
       { id := 2, word := "colour", difficulty_level := 1, is_primary := false,
         primary_word := "color" }] "colour" 1 = some true :=
  ⟨(C2_check_amended
      [{ id := 1, word := "cat", difficulty_level := 1, is_primary := true,
         primary_word := "" }] "cat" 1
      { id := 1, word := "cat", difficulty_level := 1, is_primary := true,
        primary_word := "" } rfl).mpr (Or.inl (by decide)),
   (C2_check_amended
      [{ id := 1, word := "color", difficulty_level := 1, is_primary := true,
         primary_word := "" },
       { id := 2, word := "colour", difficulty_level := 1, is_primary := false,
         primary_word := "color" }] "colour" 1
      { id := 1, word := "color", difficulty_level := 1, is_primary := true,
        primary_word := "" } rfl).mpr
     (Or.inr (Or.inr ⟨rfl,
       { id := 2, word := "colour", difficulty_level := 1, is_primary := false,
         primary_word := "color" },
       by decide, rfl, by decide⟩))⟩

theorem pools_foldl (up : List ProgressRecord) (now : Nat) :
    ∀ (l : List Word) (acc : List Word × List Word),
      l.foldl
        (fun (acc : List Word × List Word) word =>
          match up.find? (fun p => p.word_id == word.id) with
          | none => (acc.1, acc.2 ++ [word])
          | some prog =>
              if prog.next_review_at ≤ now then
                (acc.1 ++ List.replicate (10 - prog.mastery_level).toNat word,
                 acc.2)
              else acc)
        acc =
      (acc.1 ++ duePool l (fun wid => up.find? fun p => p.word_id == wid) now,
       acc.2 ++ newPool l (fun wid => up.find? fun p => p.word_id == wid)) := by
  intro l
  induction l with
  | nil => intro acc; simp [duePool, newPool]
  | cons w l ih =>
      intro acc
      rw [List.foldl_cons, ih]
      cases hf : up.find? (fun p => p.word_id == w.id) with
      | none =>
          simp [duePool, newPool, hf, List.filter_cons]
      | some prog =>
          by_cases hd : prog.next_review_at ≤ now
          · simp [duePool, newPool, hf, hd, List.filter_cons]
          · simp [duePool, newPool, hf, hd, List.filter_cons]

theorem choice_isSome {α : Type} (l : List α) (r : Nat) (h : l ≠ []) :
    (choice l r).isSome = true := by
  have hlen : 0 < l.length := List.length_pos.mpr h
  simp [choice, List.getElem?_eq_getElem (Nat.mod_lt r hlen)]

/-- C4: get_next_word partitions the primary words of the tier into the new
pool (no progress record) and the due pool (record due, each word
repeated 10 - mastery_level times), then selects from the due pool when
it is non-empty and the 0.7-biased coin came up, otherwise prefers the
new pool, then falls back to the due pool, then to the whole tier. -/
theorem C4_next_word_selection (words : List Word)
    (progress : List ProgressRecord)
    (user_id difficulty_level now : Nat) (coin : Bool)
    (rDue rNew rAll : Nat) :
    get_next_word words progress user_id difficulty_level now coin
        rDue rNew rAll =
      (if duePool
            (words.filter fun w =>
              w.difficulty_level == difficulty_level && w.is_primary)
            (dictLookup progress user_id) now ≠ [] ∧ coin = true then
        choice (duePool
          (words.filter fun w =>
            w.difficulty_level == difficulty_level && w.is_primary)
          (dictLookup progress user_id) now) rDue
      else if newPool
            (words.filter fun w =>
              w.difficulty_level == difficulty_level && w.is_primary)
            (dictLookup progress user_id) ≠ [] then
        choice (newPool
          (words.filter fun w =>
            w.difficulty_level == difficulty_level && w.is_primary)
          (dictLookup progress user_id)) rNew
      else if duePool
            (words.filter fun w =>
              w.difficulty_level == difficulty_level && w.is_primary)
            (dictLookup progress user_id) now ≠ [] then
        choice (duePool
          (words.filter fun w =>
            w.difficulty_level == difficulty_level && w.is_primary)
          (dictLookup progress user_id) now) rDue
      else
        choice (words.filter fun w =>
          w.difficulty_level == difficulty_level && w.is_primary) rAll) := by
  simp only [get_next_word]
  rw [pools_foldl]
  rfl

/-- C9: get_next_word yields no word (the final random.choice raises on
an empty sequence) exactly when the tier has no primary words; a tier
with at least one primary word always yields a word. -/
theorem C9_empty_catalog (words : List Word) (progress : List ProgressRecord)
    (user_id difficulty_level now : Nat) (coin : Bool)
    (rDue rNew rAll : Nat) :
    (get_next_word words progress user_id difficulty_level now coin
        rDue rNew rAll = none ↔
      (words.filter fun w =>
        w.difficulty_level == difficulty_level && w.is_primary) = []) := by
  simp only [get_next_word]
  rw [pools_foldl]
  simp only [List.nil_append]
  constructor
  · intro h
    split_ifs at h with h1 h2 h3
    · exact absurd (choice_isSome _ rDue h1.1) (by rw [h]; simp)
    · exact absurd (choice_isSome _ rNew h2) (by rw [h]; simp)
    · exact absurd (choice_isSome _ rDue h3) (by rw [h]; simp)
    · by_contra hne
      exact absurd (choice_isSome _ rAll hne) (by rw [h]; simp)
  · intro h
    rw [h]
    simp [duePool, newPool, choice]

theorem stats_foldl_count (progress : List ProgressRecord) (user_id : Nat) :
    ∀ (l : List Word) (a b : Nat),
      l.foldl
        (fun (mi : Nat × Nat) word =>
          match progress.find?
              (fun p => p.user_id == user_id && p.word_id == word.id) with
          | some r =>
              if r.mastery_level ≥ 5 then (mi.1 + 1, mi.2)
              else if r.mastery_level > 0 then (mi.1, mi.2 + 1)
              else mi
          | none => mi)
        (a, b) =
      (a + masteredCount l progress user_id,
       b + inProgressCount l progress user_id) := by
  intro l
  induction l with
  | nil => intro a b; simp [masteredCount, inProgressCount]
  | cons w l ih =>
      intro a b
      rw [List.foldl_cons]
      cases hf : progress.find?
          (fun p => p.user_id == user_id && p.word_id == w.id) with
      | none =>
          simp only [hf]
          rw [ih]
          simp [masteredCount, inProgressCount, statsLookup,
            List.countP_cons, hf]
      | some r =>
          simp only [hf]
          by_cases h5 : r.mastery_level ≥ 5
          · rw [if_pos h5, ih]
            have hnp : ¬(0 < r.mastery_level ∧ r.mastery_level < 5) := by
              omega
            simp [masteredCount, inProgressCount, statsLookup,
              List.countP_cons, hf, h5, hnp, Prod.mk.injEq]
            omega
          · rw [if_neg h5]
            by_cases h0 : r.mastery_level > 0
            · rw [if_pos h0, ih]
              have hp : 0 < r.mastery_level ∧ r.mastery_level < 5 := by omega
              simp [masteredCount, inProgressCount, statsLookup,
                List.countP_cons, hf, h5, hp, Prod.mk.injEq]
              omega
            · rw [if_neg h0, ih]
              have hnp : ¬(0 < r.mastery_level ∧ r.mastery_level < 5) := by
                omega
              simp [masteredCount, inProgressCount, statsLookup,
                List.countP_cons, hf, h5, hnp]

/-- C8 counterexample: with 50 primary words of which 29 are mastered,
the code computes mastery_pct = 57 in float arithmetic, while the
integer-truncated ratio 29 * 100 / 50 claimed by the spec is 58. -/
theorem C8_counterexample :
    (get_user_stats demoWords50 demoProgress29 1 1).total = 50 ∧
    (get_user_stats demoWords50 demoProgress29 1 1).mastered = 29 ∧
    (get_user_stats demoWords50 demoProgress29 1 1).mastery_pct = 57 ∧
    (get_user_stats demoWords50 demoProgress29 1 1).mastered * 100 /
      (get_user_stats demoWords50 demoProgress29 1 1).total = 58 := by
  refine ⟨rfl, by decide, by decide, by decide⟩

/-- C8 (amended): get_user_stats counts primary words of the tier with
mastery_level at least 5 as mastered and 1 to 4 as in_progress, the
remainder (including words with no progress record) being not_started;
the two percentages are computed by truncating the binary floating-point
products (mastered/total)*100 and ((mastered+in_progress)/total)*100,
which can fall one below the exact integer-truncated ratio, and both are
0 when total is 0; the example of the spec (total 10, mastered 3, in_progress
2 giving 30, 50 and 5) holds. -/
theorem C8_stats_amended (words : List Word) (progress : List ProgressRecord)
    (user_id difficulty_level : Nat) :
    (get_user_stats words progress user_id difficulty_level).total =
      (words.filter fun w =>
        w.difficulty_level == difficulty_level && w.is_primary).length ∧
    (get_user_stats words progress user_id difficulty_level).mastered =
      masteredCount
        (words.filter fun w =>
          w.difficulty_level == difficulty_level && w.is_primary)
        progress user_id ∧
    (get_user_stats words progress user_id difficulty_level).in_progress =
      inProgressCount
        (words.filter fun w =>
          w.difficulty_level == difficulty_level && w.is_primary)
        progress user_id ∧
    (get_user_stats words progress user_id difficulty_level).not_started =
      ((get_user_stats words progress user_id difficulty_level).total : Int) -
        (get_user_stats words progress user_id difficulty_level).mastered -
        (get_user_stats words progress user_id difficulty_level).in_progress ∧
    ((get_user_stats words progress user_id difficulty_level).total = 0 →
      (get_user_stats words progress user_id difficulty_level).mastery_pct
          = 0 ∧
      (get_user_stats words progress user_id difficulty_level).progress_pct
          = 0) ∧
    (get_user_stats words progress user_id difficulty_level).mastery_pct =
      (if (get_user_stats words progress user_id difficulty_level).total
          > 0 then
        floatPct
          (get_user_stats words progress user_id difficulty_level).mastered
          (get_user_stats words progress user_id difficulty_level).total
      else 0) ∧
    (get_user_stats words progress user_id difficulty_level).progress_pct =
      (if (get_user_stats words progress user_id difficulty_level).total
          > 0 then
        floatPct
          ((get_user_stats words progress user_id difficulty_level).mastered
            + (get_user_stats words progress user_id
                difficulty_level).in_progress)
          (get_user_stats words progress user_id difficulty_level).total
      else 0) ∧
    get_user_stats demoWords10 demoProgress5 1 1 =
      { total := 10, mastered := 3, in_progress := 2, not_started := 5,
        mastery_pct := 30, progress_pct := 50 } := by
  refine ⟨rfl, ?_, ?_, rfl, ?_, rfl, rfl, by decide⟩
  · show (get_user_stats words progress user_id difficulty_level).mastered = _
    simp only [get_user_stats]
    rw [stats_foldl_count]
    simp
  · show (get_user_stats words progress user_id difficulty_level).in_progress
      = _
    simp only [get_user_stats]
    rw [stats_foldl_count]
    simp
  · intro h
    simp only [get_user_stats] at h ⊢
    rw [h]
    simp

/-- C8 witness: on an empty catalog both percentages are 0. -/
theorem C8_witness :
    (get_user_stats [] [] 1 1).mastery_pct = 0 ∧
    (get_user_stats [] [] 1 1).progress_pct = 0 :=
  (C8_stats_amended [] [] 1 1).2.2.2.2.1 rfl

end SpellingBee
